import Mathlib

/-!
Verification of the geolayer specification (rasterlayer / vectorlayer).

The repository's two source files contain only signatures and docstrings:
every method body is `pass`, so there is no executable logic under `src/`.
The algorithmic core (colorizer evaluation, symbology rule matching,
parametric symbol substitution, legend classification, identify) is
therefore modelled here from the specification's own words (each such
definition carries a doc comment starting `Modelled from the spec:`),
while the stub bodies themselves are embedded literally for the claims
that are about the stubs.

Floating-point pixel values are embedded as rationals together with the
three non-finite IEEE cases (NaN, +inf, -inf), which is all the colorizer
contract distinguishes.
-/

namespace Geolayer

/-! ## Colorizer data model -/

/-- Stop modes of the raster colorizer: `inherit` resolves at evaluation
time to the colorizer's default mode. -/
inductive StopMode where
  | discrete
  | linear
  | exact
  | inherit
deriving DecidableEq

/-- RGBA color, one byte per channel. -/
structure RGBA where
  r : ℕ
  g : ℕ
  b : ℕ
  a : ℕ
deriving DecidableEq

/-- Fully transparent color. -/
def transparent : RGBA := ⟨0, 0, 0, 0⟩

/-- Colorizer stop: `(value, color, mode)`. -/
structure Stop where
  value : ℚ
  color : RGBA
  mode  : StopMode
deriving DecidableEq

/-- Colorizer: ordered stop list, default mode, default color and the
epsilon tolerance used by `exact` mode. -/
structure Colorizer where
  stops         : List Stop
  default_mode  : StopMode
  default_color : RGBA
  epsilon       : ℚ

/-- Pixel value as seen by the colorizer: a finite rational, or one of
the non-finite IEEE cases. -/
inductive PixelVal where
  | finite (q : ℚ)
  | nan
  | posInf
  | negInf
deriving DecidableEq

/-- Modelled from the spec: candidate-stop search of the Colorizer
Engine (the body of `rasterlayer.colorizer` evaluation is missing from
`src/`, which holds only its docstring).  Scans the ascending stop list
and returns the index of the last stop of the initial run with
`stop.value <= q`; on a sorted list this is the last stop whose value is
`<= q`, and `none` when the pixel value lies below every stop. -/
def findCandidate (stops : List Stop) (q : ℚ) : Option ℕ :=
  match stops with
  | [] => none
  | s :: rest =>
      if s.value ≤ q then
        match findCandidate rest q with
        | some i => some (i + 1)
        | none   => some 0
      else
        none

/-- Modelled from the spec: `inherit` resolves to the colorizer's
default mode at evaluation time. -/
def Colorizer.resolveMode (c : Colorizer) (m : StopMode) : StopMode :=
  if m = StopMode.inherit then c.default_mode else m

/-- Linear interpolation of one byte channel at parameter `t`,
rounded toward minus infinity. -/
def lerpChannel (a b : ℕ) (t : ℚ) : ℕ :=
  (⌊(a : ℚ) + t * ((b : ℚ) - (a : ℚ))⌋).toNat

/-- Channel-wise linear interpolation of two RGBA colors. -/
def lerpColor (ca cb : RGBA) (t : ℚ) : RGBA :=
  ⟨lerpChannel ca.r cb.r t, lerpChannel ca.g cb.g t,
   lerpChannel ca.b cb.b t, lerpChannel ca.a cb.a t⟩

/-- Modelled from the spec: the Colorizer Engine's
`evaluate(colorizer, pixelValue) -> RGBA` (no body exists in `src/`).
Nodata and non-finite inputs are fully transparent; otherwise the
candidate stop is the last stop with value `<= pixelValue` (none: the
default color), and the candidate's resolved mode selects discrete,
linear-interpolated or exact handling. -/
def evaluate (c : Colorizer) (nodata : ℚ) (pv : PixelVal) : RGBA :=
  match pv with
  | .nan    => transparent
  | .posInf => transparent
  | .negInf => transparent
  | .finite q =>
      if q = nodata then transparent
      else
        match findCandidate c.stops q with
        | none => c.default_color
        | some i =>
            match c.stops[i]? with
            | none => c.default_color
            | some s =>
                match c.resolveMode s.mode with
                | .discrete => s.color
                | .inherit  => s.color
                | .linear =>
                    match c.stops[i + 1]? with
                    | none => s.color
                    | some nxt =>
                        if s.value = nxt.value then s.color
                        else lerpColor s.color nxt.color
                               ((q - s.value) / (nxt.value - s.value))
                | .exact =>
                    if |q - s.value| ≤ c.epsilon then s.color
                    else c.default_color

end Geolayer

namespace Geolayer

/-- C3: evaluating a pixel value equal to the configured nodata value, or a
non-finite value (NaN, +inf, -inf), yields the fully transparent RGBA color,
for every colorizer, independently of its stops, modes and default color. -/
theorem evaluate_nodata_or_nonfinite_transparent (c : Colorizer) (nodata : ℚ) :
    evaluate c nodata .nan = transparent ∧
    evaluate c nodata .posInf = transparent ∧
    evaluate c nodata .negInf = transparent ∧
    evaluate c nodata (.finite nodata) = transparent := by
  refine ⟨rfl, rfl, rfl, ?_⟩
  simp [evaluate]

/-- C1: in `exact` mode, once a candidate stop is selected, evaluation
returns the candidate's color exactly when the absolute difference between
the pixel value and the stop's value is at most the colorizer's epsilon,
and the colorizer's default color otherwise. -/
theorem evaluate_exact_mode (c : Colorizer) (nodata q : ℚ) (i : ℕ) (s : Stop)
    (hnd : q ≠ nodata)
    (hc : findCandidate c.stops q = some i)
    (hs : c.stops[i]? = some s)
    (hm : c.resolveMode s.mode = .exact) :
    evaluate c nodata (.finite q) =
      if |q - s.value| ≤ c.epsilon then s.color else c.default_color := by
  simp [evaluate, hnd, hc, hs, hm]

/-- Example colorizer for exact mode: a single stop at value 5 with color
red, epsilon 1/100 as in the spec's example. -/
def exactExample : Colorizer :=
  { stops := [⟨5, ⟨255, 0, 0, 255⟩, .exact⟩]
    default_mode := .linear
    default_color := ⟨9, 9, 9, 9⟩
    epsilon := 1 / 100 }

/-- Witness for C1: input 5.005 (= 1001/200) is within epsilon of the stop
value 5 and yields the stop's color; input 5.02 (= 251/50) is not and
yields the default color. -/
theorem evaluate_exact_mode_witness :
    evaluate exactExample 999999 (.finite (1001 / 200)) = ⟨255, 0, 0, 255⟩ ∧
    evaluate exactExample 999999 (.finite (251 / 50)) = ⟨9, 9, 9, 9⟩ := by
  constructor
  · rw [evaluate_exact_mode exactExample 999999 (1001 / 200) 0
      ⟨5, ⟨255, 0, 0, 255⟩, .exact⟩ (by norm_num)
      (by norm_num [findCandidate, exactExample]) rfl rfl]
    simp only [exactExample]
    rw [if_pos (by rw [abs_le]; exact ⟨by norm_num, by norm_num⟩)]
  · rw [evaluate_exact_mode exactExample 999999 (251 / 50) 0
      ⟨5, ⟨255, 0, 0, 255⟩, .exact⟩ (by norm_num)
      (by norm_num [findCandidate, exactExample]) rfl rfl]
    simp only [exactExample]
    rw [if_neg (by rw [abs_le]; rintro ⟨-, h2⟩; norm_num at h2)]

/-- C4: in `linear` mode, when a next stop exists each RGBA channel of the
result is the linear interpolation between the candidate's and the next
stop's channels at parameter `(q - candidate.value) / (next.value -
candidate.value)` (floor-rounded), stops with equal values degenerate to
the candidate's color, and when no next stop exists the candidate's color
is returned as in `discrete` mode. -/
theorem evaluate_linear_mode (c : Colorizer) (nodata q : ℚ) (i : ℕ) (s : Stop)
    (hnd : q ≠ nodata)
    (hc : findCandidate c.stops q = some i)
    (hs : c.stops[i]? = some s)
    (hm : c.resolveMode s.mode = .linear) :
    (∀ nxt, c.stops[i + 1]? = some nxt →
        evaluate c nodata (.finite q) =
          if s.value = nxt.value then s.color
          else
            { r := (⌊(s.color.r : ℚ) +
                (q - s.value) / (nxt.value - s.value) *
                  ((nxt.color.r : ℚ) - (s.color.r : ℚ))⌋).toNat
              g := (⌊(s.color.g : ℚ) +
                (q - s.value) / (nxt.value - s.value) *
                  ((nxt.color.g : ℚ) - (s.color.g : ℚ))⌋).toNat
              b := (⌊(s.color.b : ℚ) +
                (q - s.value) / (nxt.value - s.value) *
                  ((nxt.color.b : ℚ) - (s.color.b : ℚ))⌋).toNat
              a := (⌊(s.color.a : ℚ) +
                (q - s.value) / (nxt.value - s.value) *
                  ((nxt.color.a : ℚ) - (s.color.a : ℚ))⌋).toNat }) ∧
    (c.stops[i + 1]? = none → evaluate c nodata (.finite q) = s.color) := by
  constructor
  · intro nxt hn
    simp [evaluate, hnd, hc, hs, hm, hn, lerpColor, lerpChannel]
  · intro hn
    simp [evaluate, hnd, hc, hs, hm, hn]

/-- Example colorizer for linear mode: stops (0, opaque black) and
(100, opaque white). -/
def bwExample : Colorizer :=
  { stops := [⟨0, ⟨0, 0, 0, 255⟩, .linear⟩, ⟨100, ⟨255, 255, 255, 255⟩, .linear⟩]
    default_mode := .linear
    default_color := ⟨0, 0, 0, 0⟩
    epsilon := 1 / 100 }

/-- Floor-then-toNat evaluation helper for concrete rational inputs. -/
theorem floorToNat_eq {x : ℚ} {n : ℕ} (h1 : (n : ℚ) ≤ x) (h2 : x < n + 1) :
    (⌊x⌋).toNat = n := by
  have h : ⌊x⌋ = (n : ℤ) := by
    rw [Int.floor_eq_iff]
    exact ⟨by exact_mod_cast h1, by push_cast; exact h2⟩
  simp [h]

/-- Witness for C4: on stops (0, black) and (100, white), evaluating 50
yields RGB (127,127,127) — within the ±1 rounding allowance of the claim —
with full opacity. -/
theorem evaluate_linear_mode_witness :
    evaluate bwExample 999999 (.finite 50) = ⟨127, 127, 127, 255⟩ := by
  rw [(evaluate_linear_mode bwExample 999999 50 0 ⟨0, ⟨0, 0, 0, 255⟩, .linear⟩
      (by norm_num) (by norm_num [findCandidate, bwExample]) rfl rfl).1
      ⟨100, ⟨255, 255, 255, 255⟩, .linear⟩ rfl]
  rw [if_neg (by norm_num)]
  simp only [RGBA.mk.injEq]
  refine ⟨floorToNat_eq ?_ ?_, floorToNat_eq ?_ ?_, floorToNat_eq ?_ ?_,
    floorToNat_eq ?_ ?_⟩ <;> norm_num

/-- Sorted stop lists yield no candidate exactly when the pixel value lies
strictly below every stop value. -/
theorem findCandidate_eq_none_iff (stops : List Stop) (q : ℚ)
    (hs : stops.Pairwise (fun a b => a.value ≤ b.value)) :
    findCandidate stops q = none ↔ ∀ s ∈ stops, q < s.value := by
  induction stops with
  | nil => simp [findCandidate]
  | cons s rest ih =>
      rcases List.pairwise_cons.mp hs with ⟨hhead, htail⟩
      by_cases h : s.value ≤ q
      · constructor
        · intro hnone
          exfalso
          simp only [findCandidate, if_pos h] at hnone
          cases hfc : findCandidate rest q <;> simp [hfc] at hnone
        · intro hall
          exact absurd h (not_le.mpr (hall s (List.mem_cons_self s rest)))
      · simp only [findCandidate, if_neg h]
        constructor
        · intro _ t ht
          rcases List.mem_cons.mp ht with rfl | ht'
          · exact not_le.mp h
          · exact lt_of_lt_of_le (not_le.mp h) (hhead t ht')
        · intro _
          trivial

/-- On a sorted stop list, a returned candidate index is in range, its stop
value is at most the pixel value, and every later stop value exceeds it. -/
theorem findCandidate_some_spec (stops : List Stop) (q : ℚ)
    (hs : stops.Pairwise (fun a b => a.value ≤ b.value)) :
    ∀ i, findCandidate stops q = some i →
      ∃ h : i < stops.length,
        (stops.get ⟨i, h⟩).value ≤ q ∧
        ∀ j (hj : j < stops.length), i < j → q < (stops.get ⟨j, hj⟩).value := by
  induction stops with
  | nil => intro i hfc; cases hfc
  | cons s rest ih =>
      intro i hfc
      rcases List.pairwise_cons.mp hs with ⟨hhead, htail⟩
      by_cases h : s.value ≤ q
      · simp only [findCandidate, if_pos h] at hfc
        cases hrec : findCandidate rest q with
        | none =>
            rw [hrec] at hfc
            obtain rfl : 0 = i := Option.some.inj hfc
            refine ⟨Nat.succ_pos _, by simpa using h, ?_⟩
            intro j hj hij
            cases j with
            | zero => exact absurd hij (lt_irrefl 0)
            | succ m =>
                have hm : m < rest.length := Nat.lt_of_succ_lt_succ (by simpa using hj)
                have hq := (findCandidate_eq_none_iff rest q htail).mp hrec
                  (rest.get ⟨m, hm⟩) (rest.get_mem _ _)
                simpa using hq
        | some r =>
            rw [hrec] at hfc
            obtain rfl : r + 1 = i := Option.some.inj hfc
            obtain ⟨hr, hle, hgt⟩ := ih htail r hrec
            refine ⟨Nat.succ_lt_succ hr, by simpa using hle, ?_⟩
            intro j hj hij
            cases j with
            | zero => exact absurd hij (Nat.not_lt_zero _)
            | succ m =>
                have hm : m < rest.length := Nat.lt_of_succ_lt_succ (by simpa using hj)
                have := hgt m hm (Nat.lt_of_succ_lt_succ hij)
                simpa using this
      · simp only [findCandidate, if_neg h] at hfc
        cases hfc

/-- An index pointing at the last stop whose value is at most the pixel
value is unique. -/
theorem lastLE_unique (stops : List Stop) (q : ℚ) (i i' : ℕ)
    (hi : ∃ h : i < stops.length, (stops.get ⟨i, h⟩).value ≤ q ∧
        ∀ j (hj : j < stops.length), i < j → q < (stops.get ⟨j, hj⟩).value)
    (hi' : ∃ h : i' < stops.length, (stops.get ⟨i', h⟩).value ≤ q ∧
        ∀ j (hj : j < stops.length), i' < j → q < (stops.get ⟨j, hj⟩).value) :
    i = i' := by
  obtain ⟨h1, hle1, hgt1⟩ := hi
  obtain ⟨h2, hle2, hgt2⟩ := hi'
  rcases lt_trichotomy i i' with h | h | h
  · exact absurd hle2 (not_le.mpr (hgt1 i' h2 h))
  · exact h
  · exact absurd hle1 (not_le.mpr (hgt2 i h1 h))

/-- C2: for a colorizer with a non-empty stop list sorted by ascending
value and a finite non-nodata pixel value, the candidate search returns
index `i` exactly when stop `i` is the last stop whose value is at most
the pixel value; when the pixel value lies below every stop, evaluation
returns the colorizer's default color. -/
theorem findCandidate_selects_last_le (c : Colorizer) (nodata q : ℚ)
    (_hne : c.stops ≠ [])
    (hsorted : c.stops.Pairwise (fun a b => a.value ≤ b.value))
    (hnd : q ≠ nodata) :
    (∀ i, findCandidate c.stops q = some i ↔
        ∃ h : i < c.stops.length,
          (c.stops.get ⟨i, h⟩).value ≤ q ∧
          ∀ j (hj : j < c.stops.length), i < j → q < (c.stops.get ⟨j, hj⟩).value) ∧
    ((∀ s ∈ c.stops, q < s.value) →
        evaluate c nodata (.finite q) = c.default_color) := by
  constructor
  · intro i
    constructor
    · exact findCandidate_some_spec c.stops q hsorted i
    · intro hspec
      cases hfc : findCandidate c.stops q with
      | none =>
          obtain ⟨h, hle, -⟩ := hspec
          have := (findCandidate_eq_none_iff c.stops q hsorted).mp hfc
            (c.stops.get ⟨i, h⟩) (List.get_mem _ _ _)
          exact absurd hle (not_le.mpr this)
      | some j =>
          have hspec' := findCandidate_some_spec c.stops q hsorted j hfc
          exact congrArg some (lastLE_unique c.stops q j i hspec' hspec)
  · intro hall
    have hnone : findCandidate c.stops q = none :=
      (findCandidate_eq_none_iff _ _ hsorted).mpr hall
    simp [evaluate, hnd, hnone]

/-- Example colorizer with three sorted discrete stops at 1, 3, 7. -/
def sortedExample : Colorizer :=
  { stops := [⟨1, ⟨10, 0, 0, 255⟩, .discrete⟩, ⟨3, ⟨0, 20, 0, 255⟩, .discrete⟩,
              ⟨7, ⟨0, 0, 30, 255⟩, .discrete⟩]
    default_mode := .discrete
    default_color := ⟨0, 0, 0, 0⟩
    epsilon := 1 / 100 }

/-- Witness for C2: on stops at 1, 3, 7 and pixel value 4, the candidate is
the stop at index 1 (value 3): its value is at most 4 and every later stop
value exceeds 4. -/
theorem findCandidate_selects_last_le_witness :
    ∃ h : 1 < sortedExample.stops.length,
      (sortedExample.stops.get ⟨1, h⟩).value ≤ 4 ∧
      ∀ j (hj : j < sortedExample.stops.length), 1 < j →
        4 < (sortedExample.stops.get ⟨j, hj⟩).value :=
  ((findCandidate_selects_last_le sortedExample 999999 4 (by simp [sortedExample])
      (by norm_num [sortedExample, List.pairwise_cons]) (by norm_num)).1 1).mp
    (by norm_num [findCandidate, sortedExample])

/-! ## Symbols and parametric substitution -/

/-- Scalar value inside a symbol triple: a string or a number. -/
inductive SVal where
  | str (v : String)
  | num (v : ℚ)
deriving DecidableEq

/-- One symbol entry `(symbolizerName, propertyName, value)`. -/
structure Triple where
  symbolizer : String
  property   : String
  value      : SVal
deriving DecidableEq

/-- Symbol: ordered list of up to 10 styles, each an ordered list of
triples. -/
abbrev Symbol := List (List Triple)

/-- Parameters of `vectorlayer.symbolChange`, mirroring its signature in
src/vectorlayer.py. -/
structure ChangeParams where
  color           : String
  fillColor       : String
  fillOpacity     : ℚ
  strokeColor     : String
  strokeWidth     : ℚ
  scalemin        : Option ℚ
  scalemax        : Option ℚ
  size_multiplier : ℚ

/-- Modelled from the spec: substitution of the reserved tag strings of a
parametric symbol (the body of `vectorlayer.symbolChange` is missing from
`src/`, which holds only its docstring).  A scalar equal to a reserved tag
is replaced by the corresponding parameter; `SCALE-MIN`/`SCALE-MAX` tags
are left in place when the parameter is absent; other values are
unchanged. -/
def substVal (p : ChangeParams) (v : SVal) : SVal :=
  match v with
  | .str "COLOR"        => .str p.color
  | .str "FILL-COLOR"   => .str p.fillColor
  | .str "FILL-OPACITY" => .num p.fillOpacity
  | .str "STROKE-COLOR" => .str p.strokeColor
  | .str "STROKE-WIDTH" => .num p.strokeWidth
  | .str "SCALE-MIN"    => match p.scalemin with | some m => .num m | none => v
  | .str "SCALE-MAX"    => match p.scalemax with | some m => .num m | none => v
  | _ => v

/-- Properties interpretable as a length, scaled by the size multiplier. -/
def isLengthProperty (prop : String) : Bool :=
  prop == "stroke-width" || prop == "width" || prop == "size"

/-- Scale the numeric value of a length property by the size multiplier. -/
def scaleTriple (mult : ℚ) (t : Triple) : Triple :=
  if isLengthProperty t.property then
    match t.value with
    | .num x => { t with value := .num (x * mult) }
    | .str _ => t
  else t

/-- Modelled from the spec: `symbolChange` as a pure transform over a
copied tree structure — substitute the reserved tags in every triple of
every style, then apply the size multiplier to length properties. -/
def symbolChange (p : ChangeParams) (sym : Symbol) : Symbol :=
  sym.map (fun style => style.map (fun t =>
    scaleTriple p.size_multiplier { t with value := substVal p t.value }))

/-- Store of Python symbol objects, indexed by position: the mutation
claim is about the Python heap, so the heap is made explicit. -/
abbrev SymbolStore := List Symbol

/-- Modelled from the spec: the Python-level call
`s2 = symbolChange(s1, ...)` against the symbol store — it reads the
input symbol, allocates the substituted deep copy as a new object and
returns its reference, updating no existing entry. -/
def symbolChangeOp (st : SymbolStore) (ref : ℕ) (p : ChangeParams) :
    SymbolStore × ℕ :=
  match st[ref]? with
  | none => (st, ref)
  | some s => (st ++ [symbolChange p s], st.length)

/-- C5: `symbolChange` never mutates its input — after the call every
pre-existing store entry (in particular the input symbol `s1`) is
unchanged, the returned reference holds the substituted copy, and in that
copy every scalar equal to the `FILL-COLOR` tag has been replaced by the
supplied `fillColor` parameter. -/
theorem symbolChange_no_mutation (st : SymbolStore) (ref : ℕ)
    (p : ChangeParams) (s : Symbol) (h : st[ref]? = some s) :
    (∀ r, r < st.length → ((symbolChangeOp st ref p).1)[r]? = st[r]?) ∧
    ((symbolChangeOp st ref p).1)[(symbolChangeOp st ref p).2]? =
      some (symbolChange p s) ∧
    (∀ (i j : ℕ) (style : List Triple) (t : Triple),
        s[i]? = some style → style[j]? = some t →
        t.value = .str "FILL-COLOR" →
        ∃ (style' : List Triple) (t' : Triple),
          (symbolChange p s)[i]? = some style' ∧
          style'[j]? = some t' ∧ t'.value = .str p.fillColor) := by
  refine ⟨?_, ?_, ?_⟩
  · intro r hr
    simp only [symbolChangeOp, h]
    exact List.getElem?_append_left hr
  · simp only [symbolChangeOp, h]
    exact List.getElem?_concat_length st (symbolChange p s)
  · intro i j style t hstyle ht hval
    refine ⟨style.map (fun u => scaleTriple p.size_multiplier
        { u with value := substVal p u.value }),
      scaleTriple p.size_multiplier { t with value := substVal p t.value },
      ?_, ?_, ?_⟩
    · simp [symbolChange, List.getElem?_map, hstyle]
    · simp [List.getElem?_map, ht]
    · have hsub : substVal p (.str "FILL-COLOR") = .str p.fillColor := rfl
      rw [hval, hsub]
      cases hlen : isLengthProperty t.property
      · simp [scaleTriple, hlen]
      · simp [scaleTriple, hlen]

/-- Example parameters: the docstring's `symbolChange(s1, fillColor=red)`
call, all other parameters at their declared defaults. -/
def exampleParams : ChangeParams :=
  { color := "#ff0000", fillColor := "red", fillOpacity := 1,
    strokeColor := "#ffff00", strokeWidth := 1 / 2,
    scalemin := none, scalemax := none, size_multiplier := 1 }

/-- Example parametric symbol from the `symbolChange` docstring. -/
def exampleSymbol : Symbol :=
  [[⟨"PolygonSymbolizer", "fill", .str "FILL-COLOR"⟩,
    ⟨"PolygonSymbolizer", "fill-opacity", .num (8 / 10)⟩,
    ⟨"LineSymbolizer", "stroke", .str "#000000"⟩,
    ⟨"LineSymbolizer", "stroke-width", .num 1⟩]]

/-- Witness for C5: with a one-symbol store, after
`symbolChange(s1, fillColor=red)` the entry holding `s1` is unchanged and
the copy's `FILL-COLOR` triple now carries the string `red`. -/
theorem symbolChange_no_mutation_witness :
    ((symbolChangeOp [exampleSymbol] 0 exampleParams).1)[0]? =
      ([exampleSymbol] : SymbolStore)[0]? ∧
    ∃ style' t', (symbolChange exampleParams exampleSymbol)[0]? = some style' ∧
      style'[0]? = some t' ∧ t'.value = .str "red" :=
  ⟨(symbolChange_no_mutation [exampleSymbol] 0 exampleParams exampleSymbol rfl).1
      0 (by simp),
   (symbolChange_no_mutation [exampleSymbol] 0 exampleParams exampleSymbol rfl).2.2
      0 0 _ _ rfl rfl rfl⟩

/-! ## Symbology rules and first-match resolution -/

/-- Comparison operators of the filter grammar. -/
inductive CmpOp where
  | eq | ne | lt | le | gt | ge | contains
deriving DecidableEq

/-- Filter predicate over feature attributes: the literal `all`, one
comparison `[field] <op> literal`, or a boolean combination. -/
inductive Pred where
  | all
  | cmp (field : String) (op : CmpOp) (lit : String)
  | conj (p q : Pred)
  | disj (p q : Pred)
deriving DecidableEq

/-- Feature attributes: a name-to-scalar mapping. -/
abbrev Attrs := List (String × String)

/-- Evaluation-time error of the rule matcher. -/
inductive FilterErr where
  | attributeNotFound (field : String)
deriving DecidableEq

/-- Substring occurrence test on character lists. -/
def occursIn (pat : List Char) : List Char → Bool
  | [] => pat.isEmpty
  | c :: rest => pat.isPrefixOf (c :: rest) || occursIn pat rest

/-- Evaluation of one comparison operator on scalar strings. -/
def cmpEval (op : CmpOp) (v lit : String) : Bool :=
  match op with
  | .eq => v == lit
  | .ne => v != lit
  | .lt => compare v lit == .lt
  | .le => compare v lit != .gt
  | .gt => compare v lit == .gt
  | .ge => compare v lit != .lt
  | .contains => occursIn lit.data v.data

/-- Modelled from the spec: Rule Matcher predicate evaluation (the bodies
of `vectorlayer.symbologyAdd` and the renderer are missing from `src/`).
The literal `all` matches every feature; an unknown field name is a
runtime `AttributeNotFoundError`, not a silent false. -/
def evalPred (p : Pred) (attrs : Attrs) : Except FilterErr Bool :=
  match p with
  | .all => .ok true
  | .cmp field op lit =>
      match attrs.lookup field with
      | none => .error (.attributeNotFound field)
      | some v => .ok (cmpEval op v lit)
  | .conj p q => do
      let a ← evalPred p attrs
      let b ← evalPred q attrs
      pure (a && b)
  | .disj p q => do
      let a ← evalPred p attrs
      let b ← evalPred q attrs
      pure (a || b)

/-- Symbology rule: predicate plus the symbol it applies. -/
abbrev Rule := Pred × Symbol

/-- Modelled from the spec: first-match-wins scan of one style slot of the
ordered rule list — the first rule whose predicate matches supplies the
slot symbol; if none match, the slot contributes nothing. -/
def resolveSlot (rules : List Rule) (attrs : Attrs) :
    Except FilterErr (Option Symbol) :=
  match rules with
  | [] => .ok none
  | (p, sym) :: rest =>
      match evalPred p attrs with
      | .error e => .error e
      | .ok true => .ok (some sym)
      | .ok false => resolveSlot rest attrs

/-- First-match-wins, positive side: if rule `i` matches and all earlier
rules evaluate to false, the scan returns rule `i`'s symbol. -/
theorem resolveSlot_of_first (attrs : Attrs) :
    ∀ (rules : List Rule) (i : ℕ) (p : Pred) (sym : Symbol),
      rules[i]? = some (p, sym) →
      evalPred p attrs = .ok true →
      (∀ (j : ℕ) (pj : Pred) (symj : Symbol), j < i →
          rules[j]? = some (pj, symj) → evalPred pj attrs = .ok false) →
      resolveSlot rules attrs = .ok (some sym) := by
  intro rules
  induction rules with
  | nil => intro i p sym h; cases h
  | cons r rest ih =>
      intro i p sym hi hp hbefore
      obtain ⟨rp, rsym⟩ := r
      cases i with
      | zero =>
          obtain ⟨rfl, rfl⟩ : rp = p ∧ rsym = sym := by
            have := hi
            simp at this
            exact ⟨this.1, this.2⟩
          simp [resolveSlot, hp]
      | succ m =>
          have h0 : evalPred rp attrs = .ok false :=
            hbefore 0 rp rsym (Nat.succ_pos m) (by simp)
          simp only [resolveSlot, h0]
          exact ih m p sym (by simpa using hi) hp
            (fun j pj symj hj hjl =>
              hbefore (j + 1) pj symj (Nat.succ_lt_succ hj) (by simpa using hjl))

/-- First-match-wins, negative side: if every rule evaluates to false the
slot contributes nothing. -/
theorem resolveSlot_of_none (attrs : Attrs) :
    ∀ rules : List Rule,
      (∀ r ∈ rules, evalPred r.1 attrs = .ok false) →
      resolveSlot rules attrs = .ok none := by
  intro rules
  induction rules with
  | nil => intro _; rfl
  | cons r rest ih =>
      intro hall
      obtain ⟨rp, rsym⟩ := r
      have h0 : evalPred rp attrs = .ok false :=
        hall (rp, rsym) (List.mem_cons_self _ _)
      simp only [resolveSlot, h0]
      exact ih (fun r hr => hall r (List.mem_cons_of_mem _ hr))

/-- C6: per style slot, rule matching is first-match-wins over the ordered
rule list — the first rule whose predicate matches (the literal `all`
matches everything) supplies the slot symbol and later rules are ignored;
when no rule matches the slot contributes nothing. -/
theorem resolveSlot_first_match (rules : List Rule) (attrs : Attrs) :
    (∀ (i : ℕ) (p : Pred) (sym : Symbol),
        rules[i]? = some (p, sym) →
        evalPred p attrs = .ok true →
        (∀ (j : ℕ) (pj : Pred) (symj : Symbol), j < i →
            rules[j]? = some (pj, symj) → evalPred pj attrs = .ok false) →
        resolveSlot rules attrs = .ok (some sym)) ∧
    (Pred.all ∈ rules.map Prod.fst → evalPred Pred.all attrs = .ok true) ∧
    ((∀ r ∈ rules, evalPred r.1 attrs = .ok false) →
        resolveSlot rules attrs = .ok none) :=
  ⟨fun i p sym => resolveSlot_of_first attrs rules i p sym,
   fun _ => rfl,
   resolveSlot_of_none attrs rules⟩

/-- Example symbol A of the first-match example. -/
def symA : Symbol := [[⟨"PolygonSymbolizer", "fill", .str "#aa0000"⟩]]

/-- Example symbol B of the first-match example. -/
def symB : Symbol := [[⟨"PolygonSymbolizer", "fill", .str "#0000bb"⟩]]

/-- Witness for C6: with rules ``[x]=a -> A`` then ``all -> B`` and a
feature whose attribute x equals a, the resolved symbol is A, not B. -/
theorem resolveSlot_first_match_witness :
    resolveSlot [(.cmp "x" .eq "a", symA), (.all, symB)] [("x", "a")] =
      .ok (some symA) ∧ symA ≠ symB :=
  ⟨(resolveSlot_first_match [(.cmp "x" .eq "a", symA), (.all, symB)]
      [("x", "a")]).1 0 (.cmp "x" .eq "a") symA rfl rfl
      (fun j pj symj hj _ => absurd hj (Nat.not_lt_zero j)),
   by simp [symA, symB]⟩

/-! ## Legends -/

/-- Legend item: description, mapnik filter rule and the color assigned
to the class (the color that legend construction substitutes into the
item's symbol as its fill color). -/
structure LegendItem where
  description : String
  rule : String
  color : RGBA
deriving DecidableEq

/-- Piecewise-linear gradient through the palette at position t in
[0,1]. -/
def gradientColor (colorlist : List RGBA) (t : ℚ) : RGBA :=
  match colorlist with
  | [] => transparent
  | [c] => c
  | c0 :: c1 :: rest =>
      let m := (c0 :: c1 :: rest).length
      let x := t * ((m : ℚ) - 1)
      let idx := (⌊x⌋).toNat
      if idx + 1 < m then
        lerpColor ((c0 :: c1 :: rest).getD idx transparent)
          ((c0 :: c1 :: rest).getD (idx + 1) transparent)
          (x - (idx : ℚ))
      else (c0 :: c1 :: rest).getD (m - 1) transparent

/-- Modelled from the spec: color assignment for class i of k classes —
position i/(k-1) on the palette gradient when interpolating, else the
direct cyclic index colorlist[i % len(colorlist)]. -/
def categoryColor (colorlist : List RGBA) (interpolate : Bool)
    (k i : ℕ) : RGBA :=
  if interpolate then
    if k ≤ 1 then colorlist.getD 0 transparent
    else gradientColor colorlist ((i : ℚ) / ((k : ℚ) - 1))
  else colorlist.getD (i % colorlist.length) transparent

/-- Modelled from the spec: `vectorlayer.legendCategories` (its body is
missing from `src/`) — one legend item per distinct value: the value as
description, the equality filter as rule, and the class color of its
index. -/
def legendCategories (fieldname : String) (colorlist : List RGBA)
    (interpolate : Bool) (distinctValues : List String) : List LegendItem :=
  (List.range distinctValues.length).map (fun i =>
    { description := distinctValues.getD i ""
      rule := "[" ++ fieldname ++ "] = " ++ distinctValues.getD i ""
      color := categoryColor colorlist interpolate distinctValues.length i })

/-- C7: with `interpolate = false`, the legend item of class index i is
assigned `colorlist[i % len(colorlist)]`, cycling through the palette once
it is exhausted. -/
theorem legendCategories_color_cycle (fieldname : String)
    (colorlist : List RGBA) (distinctValues : List String) (i : ℕ)
    (hc : colorlist ≠ []) (hi : i < distinctValues.length) :
    ∃ (item : LegendItem) (h : i % colorlist.length < colorlist.length),
      (legendCategories fieldname colorlist false distinctValues)[i]? =
        some item ∧
      item.color = colorlist.get ⟨i % colorlist.length, h⟩ := by
  have hlen : 0 < colorlist.length := List.length_pos.mpr hc
  have hmod : i % colorlist.length < colorlist.length :=
    Nat.mod_lt _ hlen
  refine ⟨{ description := distinctValues.getD i ""
            rule := "[" ++ fieldname ++ "] = " ++ distinctValues.getD i ""
            color := categoryColor colorlist false distinctValues.length i },
    hmod, ?_, ?_⟩
  · simp [legendCategories, List.getElem?_map, List.getElem?_range, hi]
  · simp [categoryColor, List.getD_eq_getElem?_getD,
      List.getElem?_eq_getElem hmod]

/-- Two-color palette of the cyclic-reuse example. -/
def twoColors : List RGBA := [⟨10, 10, 10, 255⟩, ⟨20, 20, 20, 255⟩]

/-- Witness for C7: a 2-color palette on 5 distinct values assigns colors
[c0, c1, c0, c1, c0]. -/
theorem legendCategories_color_cycle_witness :
    (∃ (item : LegendItem) (h : 4 % twoColors.length < twoColors.length),
      (legendCategories "f" twoColors false
        ["a", "b", "c", "d", "e"])[4]? = some item ∧
      item.color = twoColors.get ⟨4 % twoColors.length, h⟩) ∧
    (legendCategories "f" twoColors false
        ["a", "b", "c", "d", "e"]).map LegendItem.color =
      [⟨10, 10, 10, 255⟩, ⟨20, 20, 20, 255⟩, ⟨10, 10, 10, 255⟩,
       ⟨20, 20, 20, 255⟩, ⟨10, 10, 10, 255⟩] :=
  ⟨legendCategories_color_cycle "f" twoColors ["a", "b", "c", "d", "e"] 4
      (by simp [twoColors]) (by norm_num),
   by rfl⟩

/-- Legend classifier error: too little data. -/
inductive LegendErr where
  | insufficientData
deriving DecidableEq

/-- One graduated class: interval bounds and the class color. -/
structure GradClass where
  lower : ℚ
  upper : ℚ
  color : RGBA
deriving DecidableEq

/-- Modelled from the spec: `vectorlayer.legendGraduated` (its body is
missing from `src/`), with the EqualInterval classifier standing for the
classifier family.  An empty value population fails with
`InsufficientDataError`; a population with fewer than 2 distinct values
produces a single class covering the full range with a single color;
otherwise the range [min, max] is split into k intervals with the class
colors of `categoryColor`. -/
def legendGraduated (values : List ℚ) (colorlist : List RGBA) (k : ℕ)
    (interpolate : Bool) : Except LegendErr (List GradClass) :=
  match values with
  | [] => .error .insufficientData
  | v :: vs =>
      let vmin := vs.foldl min v
      let vmax := vs.foldl max v
      if (v :: vs).dedup.length < 2 then
        .ok [⟨vmin, vmax, colorlist.getD 0 transparent⟩]
      else
        .ok ((List.range k).map (fun (i : ℕ) =>
          ⟨vmin + (vmax - vmin) * (i : ℚ) / (k : ℚ),
           vmin + (vmax - vmin) * ((i : ℚ) + 1) / (k : ℚ),
           categoryColor colorlist interpolate k i⟩))

/-- C8: `legendGraduated` fails with `InsufficientDataError` exactly when
the value population is empty; a non-empty population with fewer than 2
distinct values does not fail and yields a single class covering the full
range [min, max] with a single color. -/
theorem legendGraduated_insufficient_iff_empty (values : List ℚ)
    (colorlist : List RGBA) (k : ℕ) (interpolate : Bool) :
    (legendGraduated values colorlist k interpolate =
        .error .insufficientData ↔ values = []) ∧
    (∀ (v : ℚ) (vs : List ℚ), values = v :: vs →
        (v :: vs).dedup.length < 2 →
        legendGraduated values colorlist k interpolate =
          .ok [⟨vs.foldl min v, vs.foldl max v,
                colorlist.getD 0 transparent⟩]) := by
  constructor
  · constructor
    · intro h
      cases values with
      | nil => rfl
      | cons v vs =>
          exfalso
          by_cases hd : (v :: vs).dedup.length < 2 <;>
            simp [legendGraduated, hd] at h
    · intro h
      subst h
      rfl
  · rintro v vs rfl hd
    simp [legendGraduated, hd]

/-- Witness for C8: applied to [5, 5] (one distinct value) it yields a
single class [5, 5] with the single palette color; applied to [] it fails
with `InsufficientDataError`. -/
theorem legendGraduated_insufficient_iff_empty_witness :
    legendGraduated [5, 5] [⟨1, 2, 3, 4⟩] 4 false =
      .ok [⟨5, 5, ⟨1, 2, 3, 4⟩⟩] ∧
    legendGraduated ([] : List ℚ) [⟨1, 2, 3, 4⟩] 4 false =
      .error .insufficientData := by
  constructor
  · have hd : ([5, 5] : List ℚ).dedup.length < 2 := by
      rw [List.dedup_cons_of_mem (by simp),
        List.dedup_cons_of_not_mem (by simp), List.dedup_nil]
      norm_num
    have h := (legendGraduated_insufficient_iff_empty [5, 5]
      [⟨1, 2, 3, 4⟩] 4 false).2 5 [5] rfl hd
    simpa using h
  · exact (legendGraduated_insufficient_iff_empty []
      [⟨1, 2, 3, 4⟩] 4 false).1.mpr rfl

/-! ## Raster identify -/

/-- Raster layer state relevant to identify: georeferencing (origin and
pixel sizes in the raster CRS), grid of pixel values by row and column,
nodata value, and the reprojection of (lon, lat) into the raster CRS. -/
structure Raster where
  width  : ℕ
  height : ℕ
  x0 : ℚ
  y0 : ℚ
  dx : ℚ
  dy : ℚ
  grid : List (List ℚ)
  nodata : ℚ
  reproject : ℚ × ℚ → ℚ × ℚ

/-- Column index of a geographic point at the raster's native
resolution. -/
def Raster.pixelCol (r : Raster) (lon lat : ℚ) : ℤ :=
  ⌊((r.reproject (lon, lat)).1 - r.x0) / r.dx⌋

/-- Row index of a geographic point at the raster's native resolution. -/
def Raster.pixelRow (r : Raster) (lon lat : ℚ) : ℤ :=
  ⌊(r.y0 - (r.reproject (lon, lat)).2) / r.dy⌋

/-- The reprojected point falls inside the raster's extent. -/
def Raster.inExtent (r : Raster) (lon lat : ℚ) : Prop :=
  0 ≤ r.pixelCol lon lat ∧ r.pixelCol lon lat < (r.width : ℤ) ∧
  0 ≤ r.pixelRow lon lat ∧ r.pixelRow lon lat < (r.height : ℤ)

instance (r : Raster) (lon lat : ℚ) : Decidable (r.inExtent lon lat) := by
  unfold Raster.inExtent
  infer_instance

/-- Pixel value under the point (nodata when the grid is ragged). -/
def Raster.pixelAt (r : Raster) (lon lat : ℚ) : ℚ :=
  (r.grid.getD (r.pixelRow lon lat).toNat []).getD
    (r.pixelCol lon lat).toNat r.nodata

/-- Modelled from the spec: `rasterlayer.identify` (its body is missing
from `src/`) — reproject the point, compute row and column at native
resolution (the zoom argument only bounds validity to [0, 20]), return
None outside the extent and None on a nodata pixel, otherwise the pixel
value. -/
def identify (r : Raster) (lon lat : ℚ) (zoom : ℕ) : Option ℚ :=
  if zoom > 20 then none
  else if r.inExtent lon lat then
    if r.pixelAt lon lat = r.nodata then none
    else some (r.pixelAt lon lat)
  else none

/-- C9: identify never surfaces a miss as an error — it returns None both
when the reprojected coordinate falls outside the raster's extent and when
the pixel value under the coordinate equals the configured nodata value
(the embedding is a total function into Option: no exception exists). -/
theorem identify_miss_none (r : Raster) (lon lat : ℚ) (zoom : ℕ) :
    (¬ r.inExtent lon lat → identify r lon lat zoom = none) ∧
    (r.pixelAt lon lat = r.nodata → identify r lon lat zoom = none) := by
  constructor
  · intro h
    by_cases hz : zoom > 20 <;> simp [identify, hz, h]
  · intro h
    by_cases hz : zoom > 20 <;>
      by_cases he : r.inExtent lon lat <;> simp [identify, hz, he, h]

/-- Example 3x3 raster: origin (0, 3), unit pixels, nodata 0, identity
reprojection, nodata at the center pixel. -/
def exampleRaster : Raster :=
  { width := 3, height := 3, x0 := 0, y0 := 3, dx := 1, dy := 1
    grid := [[1, 2, 3], [4, 0, 6], [7, 8, 9]]
    nodata := 0
    reproject := fun p => p }

/-- Witness for C9: the point (-5, 2) lies west of the extent, and the
point (1.5, 1.5) maps to the center pixel whose value is nodata; identify
returns None for both. -/
theorem identify_miss_none_witness :
    identify exampleRaster (-5) 2 10 = none ∧
    identify exampleRaster (3 / 2) (3 / 2) 10 = none := by
  constructor
  · refine (identify_miss_none exampleRaster (-5) 2 10).1 (fun h => ?_)
    have hcol : exampleRaster.pixelCol (-5) 2 = -5 := by
      show ⌊((-5 : ℚ) - 0) / 1⌋ = -5
      rw [show ((-5 : ℚ) - 0) / 1 = ((-5 : ℤ) : ℚ) by norm_num]
      exact Int.floor_intCast _
    unfold Raster.inExtent at h
    rw [hcol] at h
    exact absurd h.1 (by norm_num)
  · have hc : exampleRaster.pixelCol (3 / 2) (3 / 2) = 1 := by
      show ⌊((3 / 2 : ℚ) - 0) / 1⌋ = 1
      rw [Int.floor_eq_iff]
      norm_num
    have hr : exampleRaster.pixelRow (3 / 2) (3 / 2) = 1 := by
      show ⌊((3 : ℚ) - 3 / 2) / 1⌋ = 1
      rw [Int.floor_eq_iff]
      norm_num
    have hpx : exampleRaster.pixelAt (3 / 2) (3 / 2) = exampleRaster.nodata := by
      unfold Raster.pixelAt
      rw [hc, hr]
      rfl
    exact (identify_miss_none exampleRaster (3 / 2) (3 / 2) 10).2 hpx

/-! ## The literal stubs of src/ -/

namespace Stub

/-- Exceptions of the spec's error taxonomy. -/
inductive PyExc where
  | configurationError
  | attributeNotFoundError
  | insufficientDataError
deriving DecidableEq

/-- Outcome of one Python method call: the state after the call, the
returned value (`none` embeds Python None) and the raised exception, if
any. -/
structure Outcome (σ α : Type) where
  state : σ
  ret   : Option α
  exc   : Option PyExc

namespace rasterlayer

/-- Embedded from src/rasterlayer.py: the `__init__` body is `pass`. -/
def init {σ α : Type} (self : σ) (filepath : String) (band epsg : ℕ)
    (proj : String) (nodata : ℚ)
    (identify_dict : Option (List (ℤ × String))) (identify_integer : Bool)
    (identify_digits : ℕ) (identify_label : String) : Outcome σ α :=
  ⟨self, none, none⟩

/-- Embedded from src/rasterlayer.py: the `colorizer` body is `pass`. -/
def colorizer {σ α : Type} (self : σ) (default_mode default_color : String)
    (epsilon : ℚ) : Outcome σ α :=
  ⟨self, none, none⟩

/-- Embedded from src/rasterlayer.py: the `color` body is `pass`. -/
def color {σ α : Type} (self : σ) (value : ℚ) (color mode : String) :
    Outcome σ α :=
  ⟨self, none, none⟩

/-- Embedded from src/rasterlayer.py: the `colorlist` body is `pass`. -/
def colorlist {σ α : Type} (self : σ) (scalemin scalemax : ℚ)
    (colorlist : List String) : Outcome σ α :=
  ⟨self, none, none⟩

/-- Embedded from src/rasterlayer.py: the `colormap` body is `pass`. -/
def colormap {σ α : Type} (self : σ) (values2colors : List (ℚ × String))
    (mode : String) : Outcome σ α :=
  ⟨self, none, none⟩

/-- Embedded from src/rasterlayer.py: the `identify` body is `pass`. -/
def identify {σ α : Type} (self : σ) (lon lat : ℚ) (zoom : ℕ) :
    Outcome σ α :=
  ⟨self, none, none⟩

/-- Embedded from src/rasterlayer.py: the `tileLayer` body is `pass`. -/
def tileLayer {σ α : Type} (self : σ) (max_zoom : ℕ) : Outcome σ α :=
  ⟨self, none, none⟩

end rasterlayer

namespace vectorlayer

/-- Embedded from src/vectorlayer.py: the `symbologyAdd` body is
`pass`. -/
def symbologyAdd {σ α : Type} (self : σ) (rule : String)
    (symbol : Symbol) : Outcome σ α :=
  ⟨self, none, none⟩

/-- Embedded from src/vectorlayer.py: the `legendSingle` body is
`pass`. -/
def legendSingle {σ α : Type} (self : σ) (symbol : Symbol)
    (description : String) : Outcome σ α :=
  ⟨self, none, none⟩

/-- Embedded from src/vectorlayer.py: the `legendCategories` body is
`pass`. -/
def legendCategories {σ α : Type} (self : σ) (fieldname : String)
    (colorlist : List String) (symbol : Symbol) (interpolate : Bool)
    (distinctValues : Option (List String)) : Outcome σ α :=
  ⟨self, none, none⟩

/-- Embedded from src/vectorlayer.py: the `legendGraduated` body is
`pass`. -/
def legendGraduated {σ α : Type} (self : σ) (fieldname : String)
    (colorlist : List String) (symbol : Symbol)
    (allValues : Option (List ℚ)) (classifier_name : String)
    (classifier_param1 : ℚ) (classifier_param2 : Option ℚ)
    (interpolate : Bool) (markersize_min markersize_max : ℚ)
    (digits : ℤ) : Outcome σ α :=
  ⟨self, none, none⟩

/-- Embedded from src/vectorlayer.py: the static `symbolChange` body is
`pass`. -/
def symbolChange {α : Type} (symbol : Symbol) (color fillColor : String)
    (fillOpacity : ℚ) (strokeColor : String) (strokeWidth : ℚ)
    (scalemin scalemax : Option ℚ) (size_multiplier : ℚ) :
    Outcome Unit α :=
  ⟨(), none, none⟩

/-- Embedded from src/vectorlayer.py: the `identify` body is `pass`. -/
def identify {σ α : Type} (self : σ) (lon lat : ℚ) (zoom : ℕ) :
    Outcome σ α :=
  ⟨self, none, none⟩

/-- Embedded from src/vectorlayer.py: the `tileLayer` body is `pass`. -/
def tileLayer {σ α : Type} (self : σ) (max_zoom : ℕ) : Outcome σ α :=
  ⟨self, none, none⟩

end vectorlayer

end Stub

/-- C10: every embedded public stub of rasterlayer and vectorlayer
(construction, colorizer and symbology configuration, legend creation,
identify, symbolChange, tileLayer) returns None, leaves the state
unchanged, and raises no exception — in particular `symbolChange` returns
None instead of a modified symbol and `identify` returns the same None an
out-of-extent miss would. -/
theorem stub_methods_inert :
    (∀ (σ α : Type) (self : σ) (filepath : String) (band epsg : ℕ)
        (proj : String) (nodata : ℚ) (d : Option (List (ℤ × String)))
        (ii : Bool) (dg : ℕ) (lb : String),
        Stub.rasterlayer.init (α := α) self filepath band epsg proj nodata
          d ii dg lb = ⟨self, none, none⟩) ∧
    (∀ (σ α : Type) (self : σ) (dm dc : String) (eps : ℚ),
        Stub.rasterlayer.colorizer (α := α) self dm dc eps =
          ⟨self, none, none⟩) ∧
    (∀ (σ α : Type) (self : σ) (v : ℚ) (c m : String),
        Stub.rasterlayer.color (α := α) self v c m = ⟨self, none, none⟩) ∧
    (∀ (σ α : Type) (self : σ) (a b : ℚ) (cl : List String),
        Stub.rasterlayer.colorlist (α := α) self a b cl =
          ⟨self, none, none⟩) ∧
    (∀ (σ α : Type) (self : σ) (v2c : List (ℚ × String)) (m : String),
        Stub.rasterlayer.colormap (α := α) self v2c m =
          ⟨self, none, none⟩) ∧
    (∀ (σ α : Type) (self : σ) (lon lat : ℚ) (zoom : ℕ),
        Stub.rasterlayer.identify (α := α) self lon lat zoom =
          ⟨self, none, none⟩) ∧
    (∀ (σ α : Type) (self : σ) (mz : ℕ),
        Stub.rasterlayer.tileLayer (α := α) self mz = ⟨self, none, none⟩) ∧
    (∀ (σ α : Type) (self : σ) (rule : String) (sym : Symbol),
        Stub.vectorlayer.symbologyAdd (α := α) self rule sym =
          ⟨self, none, none⟩) ∧
    (∀ (σ α : Type) (self : σ) (sym : Symbol) (d : String),
        Stub.vectorlayer.legendSingle (α := α) self sym d =
          ⟨self, none, none⟩) ∧
    (∀ (σ α : Type) (self : σ) (f : String) (cl : List String)
        (sym : Symbol) (ip : Bool) (dv : Option (List String)),
        Stub.vectorlayer.legendCategories (α := α) self f cl sym ip dv =
          ⟨self, none, none⟩) ∧
    (∀ (σ α : Type) (self : σ) (f : String) (cl : List String)
        (sym : Symbol) (av : Option (List ℚ)) (cn : String) (p1 : ℚ)
        (p2 : Option ℚ) (ip : Bool) (m1 m2 : ℚ) (dg : ℤ),
        Stub.vectorlayer.legendGraduated (α := α) self f cl sym av cn p1
          p2 ip m1 m2 dg = ⟨self, none, none⟩) ∧
    (∀ (α : Type) (sym : Symbol) (c fc : String) (fo : ℚ) (sc : String)
        (sw : ℚ) (smin smax : Option ℚ) (mult : ℚ),
        Stub.vectorlayer.symbolChange (α := α) sym c fc fo sc sw smin
          smax mult = ⟨(), none, none⟩) ∧
    (∀ (σ α : Type) (self : σ) (lon lat : ℚ) (zoom : ℕ),
        Stub.vectorlayer.identify (α := α) self lon lat zoom =
          ⟨self, none, none⟩) ∧
    (∀ (σ α : Type) (self : σ) (mz : ℕ),
        Stub.vectorlayer.tileLayer (α := α) self mz =
          ⟨self, none, none⟩) := by
  refine ⟨?_, ?_, ?_, ?_, ?_, ?_, ?_, ?_, ?_, ?_, ?_, ?_, ?_, ?_⟩ <;>
    intros <;> rfl

end Geolayer
